import Mathlib

/-!
Verification of the collaborative text-generation core of `writing_saloon`
(`agent_saloon`), a multi-agent writing system.  The Python source is embedded
shallowly: strings are `String`, dicts whose key sets are fixed become
structures, dicts used as ordered key/value stores become association lists,
`None`-able values become `Option`, exceptions become `Except` or an explicit
failure branch, and the provider backend (an external network call) is an
oracle `Nat → Option String` giving each attempt's outcome (`none` models a
raised exception).  The coordinator's `while` loop is embedded with an
explicit fuel argument; `loop_fuel_sufficient` proves the fuel chosen by
`start_collaboration` can never run out, so the embedding's behaviour is the
loop's.
-/

deriving instance DecidableEq for Except

/-! ### String helpers (Python `str` primitives used by the source) -/

/-- Python's whitespace test for `str.strip` / `str.split` (ASCII range). -/
def isPySpace (c : Char) : Bool :=
  c == ' ' || c == '\t' || c == '\n' || c == '\r' || c == '\x0b' || c == '\x0c'

/-- Does `l` begin with `pat`?  (Helper for substring scans.) -/
def listStarts : List Char → List Char → Bool
  | _, [] => true
  | [], _ :: _ => false
  | a :: as, b :: bs => a == b && listStarts as bs

/-- Does `l` contain `pat` as a contiguous run?  Models Python's `pat in s`. -/
def listHasSub (l pat : List Char) : Bool :=
  match l with
  | [] => pat.isEmpty
  | _ :: rest => listStarts l pat || listHasSub rest pat

/-- Python `pat in s` on strings. -/
def strHasSub (s pat : String) : Bool :=
  listHasSub s.toList pat.toList

/-- Cut everything up to and including the first occurrence of `pat`;
`none` when `pat` does not occur.  Models locating a regex literal. -/
def afterFirst (pat : List Char) : List Char → Option (List Char)
  | [] => if pat.isEmpty then some [] else none
  | c :: rest =>
    if listStarts (c :: rest) pat then some ((c :: rest).drop pat.length)
    else afterFirst pat rest

/-- Python `str.strip()`. -/
def trimChars (l : List Char) : List Char :=
  ((l.dropWhile isPySpace).reverse.dropWhile isPySpace).reverse

/-- Python `str.strip()` on `String`. -/
def trimStr (s : String) : String :=
  String.mk (trimChars s.toList)

/-- Python `s.split(sep)` for a one-character separator (keeps empty pieces). -/
def splitChAux (c : Char) : List Char → List Char → List String
  | [], acc => [String.mk acc.reverse]
  | d :: rest, acc =>
    if d == c then String.mk acc.reverse :: splitChAux c rest []
    else splitChAux c rest (d :: acc)

/-- Python `s.split(sep)` for a one-character separator. -/
def splitOnChar (c : Char) (s : String) : List String :=
  splitChAux c s.toList []

/-- Python `s.split()` (no argument): whitespace-run separated words,
empty pieces dropped. -/
def wordsAux : List Char → List Char → List String
  | [], acc => if acc.isEmpty then [] else [String.mk acc.reverse]
  | c :: rest, acc =>
    if isPySpace c then
      if acc.isEmpty then wordsAux rest []
      else String.mk acc.reverse :: wordsAux rest []
    else wordsAux rest (c :: acc)

/-- Python `s.split()` (no argument). -/
def wordsOf (s : String) : List String :=
  wordsAux s.toList []

/-! ### Agent response processing (`agents/zero.py`, `gustave.py`, `camille.py`) -/

/-- Values stored in the response dictionaries and context variables. -/
inductive Value where
  | str (s : String)
  | bool (b : Bool)
  | nothing
deriving DecidableEq, Repr

/-- Result dictionary of `process_response`; all three personas return
exactly the keys `consensus`, `content`, `book_title`, `raw_response`,
`agent`, in that insertion order. -/
structure Processed where
  consensus : Bool
  content : String
  book_title : Option String
  raw_response : String
  agent : String
deriving DecidableEq, Repr

/-- Insertion-ordered `dict.items()` view of a processed response. -/
def Processed.items (p : Processed) : List (String × Value) :=
  [("consensus", Value.bool p.consensus),
   ("content", Value.str p.content),
   ("book_title", match p.book_title with | some t => Value.str t | none => Value.nothing),
   ("raw_response", Value.str p.raw_response),
   ("agent", Value.str p.agent)]

/-- Consensus-marker scan shared by the three personas:
`"Consensus: True" in content` (a case-sensitive substring test). -/
def consensusMarkerScan (content : String) : Bool :=
  strHasSub content "Consensus: True"

/-- Title extraction shared by the three personas: first match of
`re.search(r"Book Title: (.*?)(?:\n|$)", content)`, group stripped.
The lazy group captures up to the first newline or the end of the string. -/
def extractBookTitle (content : String) : Option String :=
  match afterFirst "Book Title: ".toList content.toList with
  | none => none
  | some rest => some (String.mk (trimChars (rest.takeWhile (fun c => c ≠ '\n'))))

/-- Removal of handoff markers:
`re.sub(r"HANDOFF: .*?(?:\n|$)", "", content, flags=re.MULTILINE)`.
Each occurrence of the marker is erased together with the rest of its line
and the newline that ends it.  The recursion is measured by a fuel argument
so that the definition evaluates by kernel reduction; a fuel of the input's
length never runs out, because every step strictly shrinks the list. -/
def stripHandoffAux : Nat → List Char → List Char
  | 0, _ => []
  | fuel + 1, l =>
    match l with
    | [] => []
    | c :: rest =>
      if listStarts (c :: rest) "HANDOFF: ".toList then
        stripHandoffAux fuel (((c :: rest).drop 9).dropWhile (fun d => d ≠ '\n') |>.drop 1)
      else c :: stripHandoffAux fuel rest

/-- Removal of handoff markers (entry point, fuel set to the input length). -/
def stripHandoff (l : List Char) : List Char :=
  stripHandoffAux l.length l

namespace ZeroAgent

/-- Model of `ZeroAgent.process_response` (`agents/zero.py`): case-sensitive
consensus scan, title extraction, handoff-marker stripping, strip. -/
def process_response (content : String) : Processed :=
  { consensus := consensusMarkerScan content,
    content := String.mk (trimChars (stripHandoff content.toList)),
    book_title := extractBookTitle content,
    raw_response := content,
    agent := "Zero" }

end ZeroAgent

namespace GustaveAgent

/-- Model of `GustaveAgent.process_response` (`agents/gustave.py`): identical
to Zero's except the content keeps its handoff markers (full text stripped
of surrounding whitespace only). -/
def process_response (content : String) : Processed :=
  { consensus := consensusMarkerScan content,
    content := trimStr content,
    book_title := extractBookTitle content,
    raw_response := content,
    agent := "Gustave" }

end GustaveAgent

namespace CamilleAgent

/-- Model of `CamilleAgent.process_response` (`agents/camille.py`): same
policy as Zero's (handoff markers stripped) with agent name `Camille`. -/
def process_response (content : String) : Processed :=
  { consensus := consensusMarkerScan content,
    content := String.mk (trimChars (stripHandoff content.toList)),
    book_title := extractBookTitle content,
    raw_response := content,
    agent := "Camille" }

end CamilleAgent

/-! ### Collaboration coordinator (`collaboration/coordinator.py`) -/

/-- Conversation roles. -/
inductive Role where
  | user
  | assistant
deriving DecidableEq, Repr

/-- One conversation message. -/
structure Message where
  role : Role
  content : String
deriving DecidableEq, Repr

/-- Which persona class an agent instance is (`ZeroAgent`, `GustaveAgent` or
`CamilleAgent`, the three concrete subclasses of `BaseAgent`). -/
inductive AgentKind where
  | zero
  | gustave
  | camille
deriving DecidableEq, Repr

/-- An agent as the coordinator sees it: persona binding plus the
response-processing capability of its concrete class. -/
structure Agent where
  name : String
  instructions : String
  model : String
  provider : String
  kind : AgentKind
deriving DecidableEq, Repr

/-- Dispatch of `current_agent.process_response` to the concrete class. -/
def Agent.process_response (a : Agent) (content : String) : Processed :=
  match a.kind with
  | .zero => ZeroAgent.process_response content
  | .gustave => GustaveAgent.process_response content
  | .camille => CamilleAgent.process_response content

/-- The coordinator's provider registry holds exactly the keys `"openai"`
and `"anthropic"`; `self.providers.get(p)` succeeds exactly for these. -/
def knownProvider (p : String) : Bool :=
  p == "openai" || p == "anthropic"

/-- Coordinator configuration (`CollaborationCoordinator.__init__` fields
relevant to the run logic). -/
structure Coordinator where
  agents : List Agent
  max_turns : Nat
  force_consensus_after_max_turns : Bool
deriving Repr

/-- Model of `CollaborationCoordinator.__init__`: fewer than two agents is a
fatal construction-time `ValueError`. -/
def mkCoordinator (agents : List Agent) (max_turns : Nat)
    (force_consensus_after_max_turns : Bool) : Except String Coordinator :=
  if agents.length < 2 then
    .error "At least two agents are required for collaboration"
  else
    .ok ⟨agents, max_turns, force_consensus_after_max_turns⟩

/-- The dictionary returned by `start_collaboration`. -/
structure CollaborationResult where
  consensus : Bool
  forced_consensus : Bool
  content : Option String
  turns : Nat
  messages : List Message
  metadata : List (String × Value)
deriving DecidableEq, Repr

/-- Metadata attached to a consensus result:
`{k: v for k, v in processed.items() if k not in ["content", "consensus", "raw_response"]}`.
Note the filter does not drop the `agent` key. -/
def metadataOf (p : Processed) : List (String × Value) :=
  p.items.filter fun kv =>
    !(kv.1 == "content" || kv.1 == "consensus" || kv.1 == "raw_response")

/-- Setting one key of the context dictionary: an existing key is updated in
place, a new key is appended (Python dict insertion order). -/
def setKey (ctx : List (String × Value)) (k : String) (v : Value) :
    List (String × Value) :=
  if ctx.any (fun kv => kv.1 == k) then
    ctx.map fun kv => if kv.1 == k then (k, v) else kv
  else
    ctx ++ [(k, v)]

/-- Context-variable merge after a non-consensus turn:
every processed field except `content`, `consensus`, `raw_response`, `agent`
is written into the context. -/
def ctxMerge (ctx : List (String × Value)) (p : Processed) :
    List (String × Value) :=
  p.items.foldl (fun c kv =>
    if kv.1 == "content" || kv.1 == "consensus" || kv.1 == "raw_response"
        || kv.1 == "agent" then c
    else setKey c kv.1 kv.2) ctx

/-- A provider oracle: outcome of the `n`-th provider invocation of the run
(`some text` = the model's raw text, `none` = the call raised). -/
def Oracle : Type := Nat → Option String

/-- Outcome of the collaboration `while` loop.  `outOfFuel` is an artifact of
the fuel-based embedding; `loop_fuel_sufficient` shows the fuel used by
`start_collaboration` never reaches it. -/
inductive LoopOut where
  | consensusReached (result : CollaborationResult) (attempts : Nat)
  | exhausted (messages : List Message) (turns : Nat) (attempts : Nat)
  | outOfFuel
deriving DecidableEq, Repr

/-- Attempts consumed by a finished loop (0 for the unreachable fuel case). -/
def LoopOut.attemptsOf : LoopOut → Nat
  | .consensusReached _ a => a
  | .exhausted _ _ a => a
  | .outOfFuel => 0

/-- The collaboration `while` loop of `start_collaboration`
(`coordinator.py` lines 126–202), one fuel unit per iteration.
State: message history, context variables, current agent index, `turn_count`,
`consecutive_failures`, and the oracle cursor `att` (number of attempts made
so far).  A failure of any step inside the `try` (missing agent index,
unknown provider, raising provider call) lands in the shared `except` branch:
`consecutive_failures` grows, the turn is retried in place, and the third
consecutive failure breaks the loop. -/
def loop (co : Coordinator) (oracle : Oracle) :
    Nat → List Message → List (String × Value) → Nat → Nat → Nat → Nat → LoopOut
  | 0, _, _, _, _, _, _ => .outOfFuel
  | fuel + 1, messages, ctx, idx, turn_count, cf, att =>
    if turn_count < co.max_turns then
      match co.agents.get? idx with
      | some current_agent =>
        if knownProvider current_agent.provider then
          match oracle att with
          | some content =>
            let processed := current_agent.process_response content
            let messages' := messages ++ [⟨.assistant, content⟩]
            if processed.consensus then
              .consensusReached
                { consensus := true
                  forced_consensus := false
                  content := some processed.content
                  turns := turn_count + 1
                  messages := messages'
                  metadata := metadataOf processed } (att + 1)
            else
              loop co oracle fuel messages' (ctxMerge ctx processed)
                ((idx + 1) % co.agents.length) (turn_count + 1) 0 (att + 1)
          | none =>
            if cf + 1 ≥ 3 then .exhausted messages turn_count (att + 1)
            else loop co oracle fuel messages ctx idx turn_count (cf + 1) (att + 1)
        else
          if cf + 1 ≥ 3 then .exhausted messages turn_count (att + 1)
          else loop co oracle fuel messages ctx idx turn_count (cf + 1) (att + 1)
      | none =>
        if cf + 1 ≥ 3 then .exhausted messages turn_count (att + 1)
        else loop co oracle fuel messages ctx idx turn_count (cf + 1) (att + 1)
    else .exhausted messages turn_count att

/-- Scan of `_force_consensus`: the most recent assistant message. -/
def lastAssistant (messages : List Message) : Option Message :=
  messages.reverse.find? fun m => m.role == Role.assistant

/-- Inner loop of `_force_consensus`: apply every agent's response processing
to the text, accepting the first non-empty extracted content (Python
truthiness of `processed["content"]`). -/
def firstGood : List Agent → String → Option String
  | [], _ => none
  | a :: rest, text =>
    let c := (a.process_response text).content
    if c = "" then firstGood rest text else some c

/-- Model of `CollaborationCoordinator._force_consensus`: extract final
content from the most recent assistant message, falling back to its raw text,
or to a fixed placeholder when no assistant message exists. -/
def force_consensus (agents : List Agent) (messages : List Message) : String :=
  match lastAssistant messages with
  | none => "No content available due to consensus failure."
  | some m =>
    match firstGood agents m.content with
    | some c => c
    | none => m.content

/-- Fuel with which `start_collaboration` drives the loop; strictly larger
than the worst-case iteration count `3 * max_turns + 3`
(`loop_fuel_sufficient`). -/
def loopFuel (co : Coordinator) : Nat :=
  3 * co.max_turns + 4

/-- Model of `CollaborationCoordinator.start_collaboration`: validate the
starting index (a raising `ValueError` otherwise), run the loop from a single
seed user message, and on exit without consensus either force consensus or
report failure.  The `outOfFuel` branch is unreachable
(`loop_fuel_sufficient`) and mapped to an error for totality. -/
def start_collaboration (co : Coordinator) (oracle : Oracle)
    (initial_message : String) (context_variables : List (String × Value))
    (starting_agent_index : Nat) : Except String CollaborationResult :=
  if starting_agent_index ≥ co.agents.length then
    .error ("Invalid starting agent index: " ++ toString starting_agent_index)
  else
    match loop co oracle (loopFuel co) [⟨.user, initial_message⟩]
        context_variables starting_agent_index 0 0 0 with
    | .consensusReached r _ => .ok r
    | .exhausted msgs t _ =>
      if co.force_consensus_after_max_turns then
        .ok { consensus := true
              forced_consensus := true
              content := some (force_consensus co.agents msgs)
              turns := t
              messages := msgs
              metadata := [] }
      else
        .ok { consensus := false
              forced_consensus := false
              content := none
              turns := t
              messages := msgs
              metadata := [] }
    | .outOfFuel => .error "out of fuel"

/-! ### Generator layer (`generators/base_generator.py`) -/

/-- The dictionary returned by `BaseGenerator.generate` (the wall-clock
`duration` field is outside the embedding). -/
structure GenResult where
  success : Bool
  content : Option String
  consensus : Bool
  forced_consensus : Bool
  attempts : Nat
  metadata : List (String × Value)
  messages : List Message
deriving DecidableEq, Repr

namespace BaseGenerator

/-- Model of `BaseGenerator.generate`: drive one coordinator run and repack
its result; `success` is the run's `consensus` flag.  Exceptions raised by
`start_collaboration` propagate to the caller unchanged. -/
def generate (co : Coordinator) (oracle : Oracle) (prompt : String)
    (context_variables : List (String × Value)) (starting_agent_index : Nat) :
    Except String GenResult :=
  match start_collaboration co oracle prompt context_variables
      starting_agent_index with
  | .error e => .error e
  | .ok r =>
    .ok { success := r.consensus
          content := r.content
          consensus := r.consensus
          forced_consensus := r.forced_consensus
          attempts := r.turns
          metadata := r.metadata
          messages := r.messages }

end BaseGenerator

/-- Concrete agents as built by `agents/factory.py` defaults. -/
def zeroDefault : Agent :=
  ⟨"Zero", "", "gpt-4", "openai", .zero⟩

def gustaveDefault : Agent :=
  ⟨"Gustave", "", "gpt-4", "openai", .gustave⟩

/-! ### Consensus detector similarity (`collaboration/consensus.py`) -/

/-- Python `str.lower()` (character-wise case folding). -/
def lowerStr (s : String) : String :=
  String.mk (s.toList.map Char.toLower)

/-- Token set of a text, `set(text.lower().split())`, as a duplicate-free
list (so that similarity values compute by kernel reduction). -/
def tokensOf (s : String) : List String :=
  (wordsOf (lowerStr s)).dedup

namespace ConsensusDetector

/-- Model of `ConsensusDetector._calculate_similarity`: short-circuit `1.0`
on string equality, else Jaccard similarity of the case-folded token sets
(`intersection / union`, `0.0` when the union is empty).  The Python float
arithmetic is modelled in `ℚ`; the values the claims compare against (`0.0`,
`1.0`) are exact in both, and the quotient of two small naturals is computed
exactly the same way up to rounding, which the claims never exercise. -/
def calculate_similarity (text1 text2 : String) : ℚ :=
  if text1 = text2 then 1
  else
    let tokens1 := tokensOf text1
    let tokens2 := tokensOf text2
    let intersection := (tokens1.filter fun w => tokens2.contains w).length
    let union := (tokens1 ++ tokens2.filter fun w => !tokens1.contains w).length
    if 0 < union then (intersection : ℚ) / (union : ℚ) else 0

end ConsensusDetector

/-! ### Table-of-contents generator (`generators/toc.py`) -/

/-- A depth-3 outline subsection (`{"title": ...}`). -/
structure TocSubsection where
  title : String
deriving DecidableEq, Repr

/-- A depth-2 outline section (`{"title": ..., "subsections": [...]}`). -/
structure TocSection where
  title : String
  subsections : List TocSubsection
deriving DecidableEq, Repr

/-- A depth-1 outline chapter (`{"title": ..., "sections": [...]}`). -/
structure Chapter where
  title : String
  sections : List TocSection
deriving DecidableEq, Repr

/-- Span of leading decimal digits. -/
def spanDigits (l : List Char) : List Char × List Char :=
  (l.takeWhile Char.isDigit, l.dropWhile Char.isDigit)

/-- After a matched identifier and its `[:.]` delimiter: require at least one
whitespace character (`\s+`), greedily consume the run, and return the rest
of the line stripped (`group.strip()` in the caller). -/
def wsThenTitle (l : List Char) : Option String :=
  match l with
  | c :: rest =>
    if isPySpace c then some (String.mk (trimChars (rest.dropWhile isPySpace)))
    else none
  | [] => none

/-- Core of the chapter regex after the optional word:
`(\d+)[:.]\s+(.*)` anchored at the line start. -/
def numDotTitle (l : List Char) : Option String :=
  match spanDigits l with
  | ([], _) => none
  | (_ :: _, rest) =>
    match rest with
    | d :: rest2 => if d = ':' ∨ d = '.' then wsThenTitle rest2 else none
    | [] => none

/-- The chapter pattern `^(?:Chapter\s+)?(\d+)[:.]\s+(.*)`: an optional
`Chapter` word (backtracking to the bare-number form if the rest fails). -/
def chapterLineTitle (l : List Char) : Option String :=
  let viaWord : Option String :=
    if listStarts l "Chapter".toList then
      match l.drop 7 with
      | c :: _ =>
        if isPySpace c then numDotTitle ((l.drop 7).dropWhile isPySpace)
        else none
      | [] => none
    else none
  match viaWord with
  | some t => some t
  | none => numDotTitle l

/-- The section pattern `^(\d+\.\d+)[:.]\s+(.*)`. -/
def sectionLineTitle (l : List Char) : Option String :=
  match spanDigits l with
  | ([], _) => none
  | (_ :: _, rest) =>
    match rest with
    | '.' :: rest2 =>
      match spanDigits rest2 with
      | ([], _) => none
      | (_ :: _, rest3) =>
        match rest3 with
        | d :: rest4 => if d = ':' ∨ d = '.' then wsThenTitle rest4 else none
        | [] => none
    | _ => none

/-- The subsection pattern `^(\d+\.\d+\.\d+)[:.]\s+(.*)`. -/
def subsectionLineTitle (l : List Char) : Option String :=
  match spanDigits l with
  | ([], _) => none
  | (_ :: _, rest) =>
    match rest with
    | '.' :: rest2 =>
      match spanDigits rest2 with
      | ([], _) => none
      | (_ :: _, rest3) =>
        match rest3 with
        | '.' :: rest4 =>
          match spanDigits rest4 with
          | ([], _) => none
          | (_ :: _, rest5) =>
            match rest5 with
            | d :: rest6 => if d = ':' ∨ d = '.' then wsThenTitle rest6 else none
            | [] => none
        | _ => none
    | _ => none

/-- Append a subsection to the last section of a chapter (the Python code
mutates `current_section`, which aliases the last element of the current
chapter's section list). -/
def addSubToLast (secs : List TocSection) (t : String) : List TocSection :=
  match secs with
  | [] => []
  | [s] => [⟨s.title, s.subsections ++ [⟨t⟩]⟩]
  | s :: rest => s :: addSubToLast rest t

/-- Line loop of `_parse_text_toc`: stripped lines, skipping blanks; a
chapter line closes the current chapter; a section line needs a current
chapter; a subsection line needs a current section (tracked by the flag). -/
def parseLines : List String → List Chapter → Option Chapter → Bool → List Chapter
  | [], acc, cur, _ => acc ++ cur.toList
  | ln :: rest, acc, cur, curHasSec =>
    let l := trimStr ln
    if l = "" then parseLines rest acc cur curHasSec
    else
      match chapterLineTitle l.toList with
      | some t => parseLines rest (acc ++ cur.toList) (some ⟨t, []⟩) false
      | none =>
        match sectionLineTitle l.toList, cur with
        | some t, some ch =>
          parseLines rest acc (some ⟨ch.title, ch.sections ++ [⟨t, []⟩]⟩) true
        | _, _ =>
          match subsectionLineTitle l.toList, cur, curHasSec with
          | some t, some ch, true =>
            parseLines rest acc (some ⟨ch.title, addSubToLast ch.sections t⟩) true
          | _, _, _ => parseLines rest acc cur curHasSec

namespace TableOfContentsGenerator

/-- Model of `TableOfContentsGenerator._parse_text_toc`. -/
def parse_text_toc (content : String) : List Chapter :=
  parseLines (splitOnChar '\n' (trimStr content)) [] none false

end TableOfContentsGenerator

/-- Non-overlapping matches of `re.findall(r'"([^"]+)"', content)`: maximal
quote-delimited runs of at least one non-quote character. -/
def quotedAux : Bool → List Char → List Char → List String
  | _, [], _ => []
  | false, c :: rest, _ =>
    if c = '"' then quotedAux true rest [] else quotedAux false rest []
  | true, c :: rest, acc =>
    if c = '"' then
      if acc.isEmpty then quotedAux true rest []
      else String.mk acc.reverse :: quotedAux false rest []
    else quotedAux true rest (c :: acc)

/-- Quoted phrases of a text, in order of occurrence. -/
def quotedStrings (s : String) : List String :=
  quotedAux false s.toList []

namespace TableOfContentsGenerator

/-- Model of `TableOfContentsGenerator._fix_toc`: re-parse the text; when the
parse is empty or below the minimum, harvest short quoted phrases (fewer than
10 words) as chapter titles and pad with placeholder chapters of three
placeholder sections, generating
`min(max_chapters, max(min_chapters, len(titles)))` chapters. -/
def fix_toc (content : String) (min_chapters max_chapters : Nat) :
    List Chapter :=
  let toc := parse_text_toc content
  if toc.length = 0 ∨ toc.length < min_chapters then
    let titles := (quotedStrings content).filter fun t => (wordsOf t).length < 10
    (List.range (min max_chapters (max min_chapters titles.length))).map fun i =>
      { title := titles.getD i ("Chapter " ++ toString (i + 1))
        sections := (List.range 3).map fun j =>
          { title := "Section " ++ toString (j + 1), subsections := [] } }
  else toc

/-- Post-collaboration half of `TableOfContentsGenerator.generate_toc`: the
extraction `self._extract_toc` (whose JSON and heuristic branches the claim
quantifies over) is a parameter; when it yields an empty outline or fewer
chapters than the minimum, `_fix_toc` replaces it. -/
def toc_of_content (extract : String → List Chapter) (content : String)
    (min_chapters max_chapters : Nat) : List Chapter :=
  let toc := extract content
  if toc.length = 0 ∨ toc.length < min_chapters then
    fix_toc content min_chapters max_chapters
  else toc

end TableOfContentsGenerator

/-! ### Exporter ordering (`book/exporter.py`) -/

/-- Numeric value of a digit string. -/
def digitsVal (s : String) : Nat :=
  s.toList.foldl (fun n c => n * 10 + (c.toNat - '0'.toNat)) 0

/-- Sort key of the exporter,
`[int(n) if n.isdigit() else n for n in x[0].split(".")]`, on a
dot-delimited numeric identifier: every component is all digits, so every
component takes the `int(n)` branch. -/
def sortKey (s : String) : List Nat :=
  (splitOnChar '.' s).map digitsVal

/-- Python list comparison (`<=`) on two integer keys: lexicographic with a
shorter strict prefix ranking first. -/
def natListLe : List Nat → List Nat → Bool
  | [], _ => true
  | _ :: _, [] => false
  | a :: as, b :: bs =>
    if a < b then true else if b < a then false else natListLe as bs

/-- Identifiers whose components are all non-empty digit strings
(`n.isdigit()` true for every component). -/
def numericId (s : String) : Bool :=
  (splitOnChar '.' s).all fun p => !p.isEmpty && p.toList.all Char.isDigit

/-- Key order on identifiers as the exporter's `sorted(..., key=...)`
compares them. -/
def keyOrder (a b : String) : Prop :=
  natListLe (sortKey a) (sortKey b) = true

instance : DecidableRel keyOrder := fun a b => by
  unfold keyOrder; infer_instance

/-- Model of the exporter's `sorted(book.sections.items(), key=...)`
restricted to the identifiers: a stable sort by the numeric path key. -/
def sortIds (ids : List String) : List String :=
  List.insertionSort keyOrder ids


/-! ### Step and invariant lemmas for the collaboration loop -/

/-- A loop iteration whose `try` block raises: the agent index is out of
range, the provider id is unknown, or the provider call itself raises. -/
def attemptFails (co : Coordinator) (oracle : Oracle) (idx att : Nat) : Prop :=
  match co.agents.get? idx with
  | none => True
  | some ag => knownProvider ag.provider = false ∨ oracle att = none

theorem loop_exit_step (co : Coordinator) (oracle : Oracle) (fuel : Nat)
    (msgs : List Message) (ctx : List (String × Value)) (idx t cf att : Nat)
    (ht : ¬ t < co.max_turns) :
    loop co oracle (fuel + 1) msgs ctx idx t cf att = .exhausted msgs t att := by
  rw [loop, if_neg ht]

theorem loop_consensus_step (co : Coordinator) (oracle : Oracle) (fuel : Nat)
    (msgs : List Message) (ctx : List (String × Value)) (idx t cf att : Nat)
    (ag : Agent) (content : String)
    (ht : t < co.max_turns)
    (hag : co.agents.get? idx = some ag)
    (hp : knownProvider ag.provider = true)
    (ho : oracle att = some content)
    (hc : (ag.process_response content).consensus = true) :
    loop co oracle (fuel + 1) msgs ctx idx t cf att =
      .consensusReached
        { consensus := true
          forced_consensus := false
          content := some (ag.process_response content).content
          turns := t + 1
          messages := msgs ++ [⟨.assistant, content⟩]
          metadata := metadataOf (ag.process_response content) } (att + 1) := by
  rw [loop, if_pos ht, hag]
  simp only [hp, if_pos, ho, hc, if_true]

theorem loop_success_step (co : Coordinator) (oracle : Oracle) (fuel : Nat)
    (msgs : List Message) (ctx : List (String × Value)) (idx t cf att : Nat)
    (ag : Agent) (content : String)
    (ht : t < co.max_turns)
    (hag : co.agents.get? idx = some ag)
    (hp : knownProvider ag.provider = true)
    (ho : oracle att = some content)
    (hc : (ag.process_response content).consensus = false) :
    loop co oracle (fuel + 1) msgs ctx idx t cf att =
      loop co oracle fuel (msgs ++ [⟨.assistant, content⟩])
        (ctxMerge ctx (ag.process_response content))
        ((idx + 1) % co.agents.length) (t + 1) 0 (att + 1) := by
  rw [loop, if_pos ht, hag]
  simp only [hp, if_pos, ho, hc, if_false, Bool.false_eq_true]

theorem loop_fail_step (co : Coordinator) (oracle : Oracle) (fuel : Nat)
    (msgs : List Message) (ctx : List (String × Value)) (idx t cf att : Nat)
    (ht : t < co.max_turns)
    (hf : attemptFails co oracle idx att)
    (hcf : cf + 1 < 3) :
    loop co oracle (fuel + 1) msgs ctx idx t cf att =
      loop co oracle fuel msgs ctx idx t (cf + 1) (att + 1) := by
  have hcf2 : ¬ cf + 1 ≥ 3 := by omega
  rw [loop, if_pos ht]
  unfold attemptFails at hf
  cases hag : co.agents.get? idx with
  | none => simp [hcf2]
  | some ag =>
    rw [hag] at hf
    cases hf with
    | inl hp => simp [hp, hcf2]
    | inr ho =>
      cases hq : knownProvider ag.provider with
      | false => simp [hq, hcf2]
      | true => simp [hq, ho, hcf2]

theorem loop_abort_step (co : Coordinator) (oracle : Oracle) (fuel : Nat)
    (msgs : List Message) (ctx : List (String × Value)) (idx t cf att : Nat)
    (ht : t < co.max_turns)
    (hf : attemptFails co oracle idx att)
    (hcf : cf + 1 ≥ 3) :
    loop co oracle (fuel + 1) msgs ctx idx t cf att =
      .exhausted msgs t (att + 1) := by
  rw [loop, if_pos ht]
  unfold attemptFails at hf
  cases hag : co.agents.get? idx with
  | none => simp [hcf]
  | some ag =>
    rw [hag] at hf
    cases hf with
    | inl hp => simp [hp, hcf]
    | inr ho =>
      cases hq : knownProvider ag.provider with
      | false => simp [hq, hcf]
      | true => simp [hq, ho, hcf]

/-- Combined loop invariants, by induction on the fuel: (1) with fuel at
least `3*(max_turns - turn_count) + 4 - cf` the loop finishes properly;
(2) a consensus result has `consensus = true`, `forced_consensus = false`,
at most `max_turns` turns, and consumes at most `3*(max_turns - t) + 3 - cf`
further attempts; (3) an exhausted exit respects the same two bounds. -/
theorem loop_invariants (co : Coordinator) (oracle : Oracle) :
    ∀ (fuel : Nat) (msgs : List Message) (ctx : List (String × Value))
      (idx t cf att : Nat), t ≤ co.max_turns → cf ≤ 2 →
      (3 * (co.max_turns - t) + 4 - cf ≤ fuel →
        loop co oracle fuel msgs ctx idx t cf att ≠ .outOfFuel)
      ∧ (∀ r a, loop co oracle fuel msgs ctx idx t cf att = .consensusReached r a →
          r.consensus = true ∧ r.forced_consensus = false ∧ r.turns ≤ co.max_turns ∧
          a ≤ att + (3 * (co.max_turns - t) + 3 - cf))
      ∧ (∀ ms tu a, loop co oracle fuel msgs ctx idx t cf att = .exhausted ms tu a →
          tu ≤ co.max_turns ∧ a ≤ att + (3 * (co.max_turns - t) + 3 - cf)) := by
  intro fuel
  induction fuel with
  | zero =>
    intro msgs ctx idx t cf att ht hcf
    refine ⟨fun hb => absurd hb (by omega), ?_, ?_⟩
    · intro r a h
      simp [loop] at h
    · intro ms tu a h
      simp [loop] at h
  | succ fuel ih =>
    intro msgs ctx idx t cf att ht hcf
    by_cases htlt : t < co.max_turns
    · cases hag : co.agents.get? idx with
      | none =>
        have hfail : attemptFails co oracle idx att := by
          unfold attemptFails
          rw [hag]
          trivial
        by_cases habort : cf + 1 ≥ 3
        · rw [loop_abort_step co oracle fuel msgs ctx idx t cf att htlt hfail habort]
          refine ⟨fun _ h => LoopOut.noConfusion h, ?_, ?_⟩
          · intro r a h
            exact LoopOut.noConfusion h
          · intro ms tu a h
            injection h with h1 h2 h3
            subst h2
            exact ⟨ht, by omega⟩
        · rw [loop_fail_step co oracle fuel msgs ctx idx t cf att htlt hfail (by omega)]
          obtain ⟨ih1, ih2, ih3⟩ := ih msgs ctx idx t (cf + 1) (att + 1) ht (by omega)
          refine ⟨fun hb => ih1 (by omega), ?_, ?_⟩
          · intro r a h
            obtain ⟨x1, x2, x3, x4⟩ := ih2 r a h
            exact ⟨x1, x2, x3, by omega⟩
          · intro ms tu a h
            obtain ⟨x1, x2⟩ := ih3 ms tu a h
            exact ⟨x1, by omega⟩
      | some ag =>
        cases hq : knownProvider ag.provider with
        | false =>
          have hfail : attemptFails co oracle idx att := by
            unfold attemptFails
            rw [hag]
            exact Or.inl hq
          by_cases habort : cf + 1 ≥ 3
          · rw [loop_abort_step co oracle fuel msgs ctx idx t cf att htlt hfail habort]
            refine ⟨fun _ h => LoopOut.noConfusion h, ?_, ?_⟩
            · intro r a h
              exact LoopOut.noConfusion h
            · intro ms tu a h
              injection h with h1 h2 h3
              subst h2
              exact ⟨ht, by omega⟩
          · rw [loop_fail_step co oracle fuel msgs ctx idx t cf att htlt hfail (by omega)]
            obtain ⟨ih1, ih2, ih3⟩ := ih msgs ctx idx t (cf + 1) (att + 1) ht (by omega)
            refine ⟨fun hb => ih1 (by omega), ?_, ?_⟩
            · intro r a h
              obtain ⟨x1, x2, x3, x4⟩ := ih2 r a h
              exact ⟨x1, x2, x3, by omega⟩
            · intro ms tu a h
              obtain ⟨x1, x2⟩ := ih3 ms tu a h
              exact ⟨x1, by omega⟩
        | true =>
          cases ho : oracle att with
          | none =>
            have hfail : attemptFails co oracle idx att := by
              unfold attemptFails
              rw [hag]
              exact Or.inr ho
            by_cases habort : cf + 1 ≥ 3
            · rw [loop_abort_step co oracle fuel msgs ctx idx t cf att htlt hfail habort]
              refine ⟨fun _ h => LoopOut.noConfusion h, ?_, ?_⟩
              · intro r a h
                exact LoopOut.noConfusion h
              · intro ms tu a h
                injection h with h1 h2 h3
                subst h2
                exact ⟨ht, by omega⟩
            · rw [loop_fail_step co oracle fuel msgs ctx idx t cf att htlt hfail (by omega)]
              obtain ⟨ih1, ih2, ih3⟩ := ih msgs ctx idx t (cf + 1) (att + 1) ht (by omega)
              refine ⟨fun hb => ih1 (by omega), ?_, ?_⟩
              · intro r a h
                obtain ⟨x1, x2, x3, x4⟩ := ih2 r a h
                exact ⟨x1, x2, x3, by omega⟩
              · intro ms tu a h
                obtain ⟨x1, x2⟩ := ih3 ms tu a h
                exact ⟨x1, by omega⟩
          | some content =>
            cases hc : (ag.process_response content).consensus with
            | true =>
              rw [loop_consensus_step co oracle fuel msgs ctx idx t cf att ag content
                htlt hag hq ho hc]
              refine ⟨fun _ h => LoopOut.noConfusion h, ?_, ?_⟩
              · intro r a h
                injection h with h1 h2
                subst h1
                subst h2
                refine ⟨rfl, rfl, ?_, ?_⟩
                · show t + 1 ≤ co.max_turns
                  omega
                · show att + 1 ≤ att + (3 * (co.max_turns - t) + 3 - cf)
                  omega
              · intro ms tu a h
                exact LoopOut.noConfusion h
            | false =>
              rw [loop_success_step co oracle fuel msgs ctx idx t cf att ag content
                htlt hag hq ho hc]
              obtain ⟨ih1, ih2, ih3⟩ :=
                ih (msgs ++ [⟨.assistant, content⟩]) (ctxMerge ctx (ag.process_response content))
                  ((idx + 1) % co.agents.length) (t + 1) 0 (att + 1) (by omega) (by omega)
              refine ⟨fun hb => ih1 (by omega), ?_, ?_⟩
              · intro r a h
                obtain ⟨x1, x2, x3, x4⟩ := ih2 r a h
                exact ⟨x1, x2, x3, by omega⟩
              · intro ms tu a h
                obtain ⟨x1, x2⟩ := ih3 ms tu a h
                exact ⟨x1, by omega⟩
    · rw [loop_exit_step co oracle fuel msgs ctx idx t cf att htlt]
      refine ⟨fun _ h => LoopOut.noConfusion h, ?_, ?_⟩
      · intro r a h
        exact LoopOut.noConfusion h
      · intro ms tu a h
        injection h with h1 h2 h3
        subst h2
        subst h3
        exact ⟨ht, by omega⟩

/-! ### Substring characterization (for the consensus-marker claims) -/

theorem listStarts_iff (pat l : List Char) :
    listStarts l pat = true ↔ ∃ q, l = pat ++ q := by
  induction pat generalizing l with
  | nil =>
    simp [listStarts]
  | cons b bs ih =>
    cases l with
    | nil =>
      simp [listStarts]
    | cons a as =>
      simp only [listStarts, Bool.and_eq_true, beq_iff_eq, ih, List.cons_append,
        List.cons.injEq]
      constructor
      · rintro ⟨h1, q, h2⟩
        exact ⟨q, h1, h2⟩
      · rintro ⟨q, h1, h2⟩
        exact ⟨h1, q, h2⟩

theorem listHasSub_iff (l pat : List Char) :
    listHasSub l pat = true ↔ ∃ p q, l = p ++ pat ++ q := by
  induction l with
  | nil =>
    simp only [listHasSub, List.isEmpty_iff]
    constructor
    · rintro rfl
      exact ⟨[], [], rfl⟩
    · rintro ⟨p, q, h⟩
      rcases List.append_eq_nil.mp h.symm with ⟨h1, h2⟩
      exact (List.append_eq_nil.mp h1).2
  | cons c rest ih =>
    simp only [listHasSub, Bool.or_eq_true, listStarts_iff, ih]
    constructor
    · rintro (⟨q, h⟩ | ⟨p, q, h⟩)
      · exact ⟨[], q, by simp [h]⟩
      · exact ⟨c :: p, q, by simp [h]⟩
    · rintro ⟨p, q, h⟩
      cases p with
      | nil =>
        exact Or.inl ⟨q, by simpa using h⟩
      | cons x xs =>
        simp only [List.cons_append, List.cons.injEq] at h
        exact Or.inr ⟨xs, q, h.2⟩

/-- Python `pat in s` holds exactly when the text splits around the pattern. -/
theorem strHasSub_iff (s pat : String) :
    strHasSub s pat = true ↔ ∃ p q, s.toList = p ++ pat.toList ++ q :=
  listHasSub_iff s.toList pat.toList

/-! ### Set lemmas for the Jaccard similarity -/

theorem tokensOf_nodup (s : String) : (tokensOf s).Nodup :=
  List.nodup_dedup _

theorem filter_inter_length_comm {l m : List String}
    (hl : l.Nodup) (hm : m.Nodup) :
    (l.filter fun w => m.contains w).length =
      (m.filter fun w => l.contains w).length := by
  have hperm : List.Perm (l.filter fun w => m.contains w)
      (m.filter fun w => l.contains w) := by
    rw [List.perm_ext_iff_of_nodup (hl.filter _) (hm.filter _)]
    intro a
    simp only [List.mem_filter, List.elem_eq_mem, decide_eq_true_eq]
    exact and_comm
  exact hperm.length_eq

theorem union_length_comm {l m : List String}
    (hl : l.Nodup) (hm : m.Nodup) :
    (l ++ m.filter fun w => !l.contains w).length =
      (m ++ l.filter fun w => !m.contains w).length := by
  have h1 : (l ++ m.filter fun w => !l.contains w).Nodup := by
    refine List.Nodup.append hl (hm.filter _) ?_
    intro a hal haf
    have := (List.mem_filter.mp haf).2
    simp only [List.elem_eq_mem, Bool.not_eq_eq_eq_not, Bool.not_true,
      decide_eq_false_iff_not] at this
    exact this hal
  have h2 : (m ++ l.filter fun w => !m.contains w).Nodup := by
    refine List.Nodup.append hm (hl.filter _) ?_
    intro a hal haf
    have := (List.mem_filter.mp haf).2
    simp only [List.elem_eq_mem, Bool.not_eq_eq_eq_not, Bool.not_true,
      decide_eq_false_iff_not] at this
    exact this hal
  have hperm : List.Perm (l ++ m.filter fun w => !l.contains w)
      (m ++ l.filter fun w => !m.contains w) := by
    rw [List.perm_ext_iff_of_nodup h1 h2]
    intro a
    simp only [List.mem_append, List.mem_filter, List.elem_eq_mem,
      Bool.not_eq_eq_eq_not, Bool.not_true, decide_eq_false_iff_not]
    by_cases ha : a ∈ l <;> by_cases hb : a ∈ m <;> simp [ha, hb]
  exact hperm.length_eq

/-! ### Order lemmas for the exporter sort key -/

theorem natListLe_total : ∀ a b : List Nat, natListLe a b = true ∨ natListLe b a = true := by
  intro a
  induction a with
  | nil => intro b; exact Or.inl rfl
  | cons x xs ih =>
    intro b
    cases b with
    | nil => exact Or.inr rfl
    | cons y ys =>
      rcases Nat.lt_trichotomy x y with h | h | h
      · left; simp [natListLe, h]
      · subst h
        rcases ih ys with hy | hy
        · left; simp [natListLe, Nat.lt_irrefl, hy]
        · right; simp [natListLe, Nat.lt_irrefl, hy]
      · right; simp [natListLe, h]

theorem natListLe_trans :
    ∀ a b c : List Nat, natListLe a b = true → natListLe b c = true →
      natListLe a c = true := by
  intro a
  induction a with
  | nil => intro b c _ _; rfl
  | cons x xs ih =>
    intro b c hab hbc
    cases b with
    | nil => simp [natListLe] at hab
    | cons y ys =>
      cases c with
      | nil => simp [natListLe] at hbc
      | cons z zs =>
        by_cases hxz : x < z
        · simp [natListLe, hxz]
        · by_cases hzx : z < x
          · exfalso
            by_cases hxy : x < y
            · by_cases hyz : y < z
              · omega
              · by_cases hzy : z < y
                · simp [natListLe, hyz, hzy] at hbc
                · omega
            · by_cases hyx : y < x
              · simp [natListLe, hxy, hyx] at hab
              · have hxy' : x = y := by omega
                subst hxy'
                simp [natListLe, hzx] at hbc
                omega
          · have hxz' : x = z := by omega
            subst hxz'
            by_cases hxy : x < y
            · exfalso
              simp [natListLe, (by omega : ¬ y < x), hxy] at hbc
              omega
            · by_cases hyx : y < x
              · exfalso
                simp [natListLe, hxy, hyx] at hab
              · have hxy' : x = y := by omega
                subst hxy'
                simp only [natListLe, Nat.lt_irrefl, if_false] at hab hbc ⊢
                exact ih ys zs hab hbc

instance : IsTotal String keyOrder :=
  ⟨fun a b => natListLe_total (sortKey a) (sortKey b)⟩

instance : IsTrans String keyOrder :=
  ⟨fun a b c => natListLe_trans (sortKey a) (sortKey b) (sortKey c)⟩

/-! ### Claim C2 -/

/-- Formalization of the claim's words for C2: a case-insensitive scan of
the text for "Consensus: True" (case-fold both and look for a substring). -/
def spec_caseInsensitiveConsensusScan (content : String) : Bool :=
  strHasSub (lowerStr content) (lowerStr "Consensus: True")

/-- C2, counterexample: on the raw text "consensus: true" a case-insensitive
scan finds the marker, but all three `process_response` implementations use
the case-sensitive Python substring test `"Consensus: True" in content` and
report `consensus = false`; the claimed equivalence fails on this input. -/
theorem c2_counterexample :
    ¬ ((ZeroAgent.process_response "consensus: true").consensus = true ↔
      spec_caseInsensitiveConsensusScan "consensus: true" = true) := by
  decide

/-- C2 (amended): for every raw response text, each persona's
`process_response` reports `consensus = true` exactly when the text contains
the substring "Consensus: True" with this exact capitalization (the scan is
case-sensitive, so "consensus: true", "Consensus: False", or a missing
marker all yield `consensus = false`). -/
theorem c2_amended_marker_scan :
    ∀ content : String,
      ((ZeroAgent.process_response content).consensus = true ↔
        ∃ p q, content.toList = p ++ "Consensus: True".toList ++ q)
      ∧ ((GustaveAgent.process_response content).consensus = true ↔
        ∃ p q, content.toList = p ++ "Consensus: True".toList ++ q)
      ∧ ((CamilleAgent.process_response content).consensus = true ↔
        ∃ p q, content.toList = p ++ "Consensus: True".toList ++ q) := by
  intro content
  refine ⟨?_, ?_, ?_⟩ <;> exact strHasSub_iff content "Consensus: True"

/-! ### Claim C7 -/

/-- C7, counterexample: the claim asserts `sim("", "") == 0.0`, but the
identical-strings short-circuit in `_calculate_similarity` fires first and
returns `1.0`. -/
theorem c7_counterexample :
    ¬ ConsensusDetector.calculate_similarity "" "" = 0 := by
  decide

/-- C7 (amended): the similarity used for implicit consensus is symmetric,
and `sim(a, a) = 1.0` for every string `a` — including the empty string, so
`sim("", "") = 1.0` (not `0.0`): the identical-strings short-circuit
precedes the empty-union rule. -/
theorem c7_amended_similarity :
    (∀ a b : String, ConsensusDetector.calculate_similarity a b =
      ConsensusDetector.calculate_similarity b a)
    ∧ (∀ a : String, ConsensusDetector.calculate_similarity a a = 1)
    ∧ ConsensusDetector.calculate_similarity "" "" = 1 := by
  refine ⟨?_, ?_, ?_⟩
  · intro a b
    by_cases h : a = b
    · subst h; rfl
    · have h' : ¬ b = a := fun e => h e.symm
      simp only [ConsensusDetector.calculate_similarity, if_neg h, if_neg h']
      rw [filter_inter_length_comm (tokensOf_nodup a) (tokensOf_nodup b),
        union_length_comm (tokensOf_nodup a) (tokensOf_nodup b)]
  · intro a
    simp [ConsensusDetector.calculate_similarity]
  · decide

/-! ### Claim C8 -/

theorem fix_toc_min_le (content : String) (minc maxc : Nat) (h : minc ≤ maxc) :
    minc ≤ (TableOfContentsGenerator.fix_toc content minc maxc).length := by
  simp only [TableOfContentsGenerator.fix_toc]
  split
  · simp only [List.length_map, List.length_range]
    omega
  · omega

/-- C8 (confirmed): for every collaboration content and every configuration
with `min_chapters ≤ max_chapters`, when the extraction yields fewer chapters
than `min_chapters`, `generate_toc` runs the `_fix_toc` repair pass and the
returned outline has at least `min_chapters` chapters. -/
theorem c8_toc_minimum :
    ∀ (extract : String → List Chapter) (content : String) (minc maxc : Nat),
      minc ≤ maxc → (extract content).length < minc →
      TableOfContentsGenerator.toc_of_content extract content minc maxc =
        TableOfContentsGenerator.fix_toc content minc maxc ∧
      minc ≤ (TableOfContentsGenerator.toc_of_content extract content minc maxc).length := by
  intro extract content minc maxc hmx hlt
  have heq : TableOfContentsGenerator.toc_of_content extract content minc maxc =
      TableOfContentsGenerator.fix_toc content minc maxc := by
    simp only [TableOfContentsGenerator.toc_of_content]
    rw [if_pos (Or.inr hlt)]
  refine ⟨heq, ?_⟩
  rw [heq]
  exact fix_toc_min_le content minc maxc hmx

/-- Witness for C8 at a concrete input: the extractor finds no chapters in
a text holding two quoted phrases, so the repair builds an outline of at
least the two required chapters. -/
theorem c8_witness :
    TableOfContentsGenerator.toc_of_content (fun _ => []) "\"Alpha\" and \"Beta\"" 2 3 =
      TableOfContentsGenerator.fix_toc "\"Alpha\" and \"Beta\"" 2 3 ∧
    2 ≤ (TableOfContentsGenerator.toc_of_content (fun _ => [])
      "\"Alpha\" and \"Beta\"" 2 3).length :=
  c8_toc_minimum (fun _ => []) "\"Alpha\" and \"Beta\"" 2 3 (by decide) (by decide)

/-! ### Claim C9 -/

/-- C9 (confirmed): the exporter's sort key splits identifiers on "." and
compares components numerically: sorting any list of dot-delimited numeric
identifiers yields a permutation sorted by the numeric path order, and the
claim's concrete instance sorts with "1.9" before "1.10" (numeric, never
lexicographic). -/
theorem c9_numeric_sort :
    (∀ ids : List String, (∀ s ∈ ids, numericId s = true) →
      List.Sorted keyOrder (sortIds ids) ∧ List.Perm (sortIds ids) ids)
    ∧ sortIds ["1", "1.2", "1.10", "1.9", "2"] = ["1", "1.2", "1.9", "1.10", "2"] := by
  constructor
  · intro ids _
    exact ⟨List.sorted_insertionSort keyOrder ids, List.perm_insertionSort keyOrder ids⟩
  · decide

/-- Witness for C9: the numeric-identifier hypothesis discharged on a
concrete list. -/
theorem c9_witness :
    List.Sorted keyOrder (sortIds ["2.10", "2.9"]) ∧
      List.Perm (sortIds ["2.10", "2.9"]) ["2.10", "2.9"] :=
  c9_numeric_sort.1 ["2.10", "2.9"] (by decide)

/-! ### Inversion helpers for `start_collaboration` -/

theorem start_collab_of_consensus (co : Coordinator) (oracle : Oracle)
    (prompt : String) (ctx : List (String × Value)) (sidx : Nat)
    (r : CollaborationResult) (a : Nat)
    (hs : sidx < co.agents.length)
    (hl : loop co oracle (loopFuel co) [⟨.user, prompt⟩] ctx sidx 0 0 0 =
      .consensusReached r a) :
    start_collaboration co oracle prompt ctx sidx = .ok r := by
  unfold start_collaboration
  rw [if_neg (by omega), hl]

theorem start_collab_exhausted_forced (co : Coordinator) (oracle : Oracle)
    (prompt : String) (ctx : List (String × Value)) (sidx : Nat)
    (ms : List Message) (tu a : Nat)
    (hs : sidx < co.agents.length)
    (hf : co.force_consensus_after_max_turns = true)
    (hl : loop co oracle (loopFuel co) [⟨.user, prompt⟩] ctx sidx 0 0 0 =
      .exhausted ms tu a) :
    start_collaboration co oracle prompt ctx sidx =
      .ok { consensus := true, forced_consensus := true,
            content := some (force_consensus co.agents ms),
            turns := tu, messages := ms, metadata := [] } := by
  unfold start_collaboration
  rw [if_neg (by omega), hl, hf]
  rfl

theorem start_collab_exhausted_unforced (co : Coordinator) (oracle : Oracle)
    (prompt : String) (ctx : List (String × Value)) (sidx : Nat)
    (ms : List Message) (tu a : Nat)
    (hs : sidx < co.agents.length)
    (hf : co.force_consensus_after_max_turns = false)
    (hl : loop co oracle (loopFuel co) [⟨.user, prompt⟩] ctx sidx 0 0 0 =
      .exhausted ms tu a) :
    start_collaboration co oracle prompt ctx sidx =
      .ok { consensus := false, forced_consensus := false, content := none,
            turns := tu, messages := ms, metadata := [] } := by
  unfold start_collaboration
  rw [if_neg (by omega), hl, hf]
  rfl

/-- Every run from a valid starting index returns a result (the `while` loop
terminates and no exception escapes the turn loop); its turn count respects
the budget, and a result without consensus only arises with forcing
disabled, with `content = None`. -/
theorem start_collab_cases (co : Coordinator) (oracle : Oracle)
    (prompt : String) (ctx : List (String × Value)) (sidx : Nat)
    (hs : sidx < co.agents.length) :
    ∃ r, start_collaboration co oracle prompt ctx sidx = .ok r ∧
      r.turns ≤ co.max_turns ∧
      (r.consensus = true ∨
        (r.consensus = false ∧ r.forced_consensus = false ∧ r.content = none ∧
          co.force_consensus_after_max_turns = false)) := by
  obtain ⟨inv1, inv2, inv3⟩ := loop_invariants co oracle (loopFuel co)
    [⟨.user, prompt⟩] ctx sidx 0 0 0 (by omega) (by omega)
  cases hl : loop co oracle (loopFuel co) [⟨.user, prompt⟩] ctx sidx 0 0 0 with
  | consensusReached r a =>
    obtain ⟨h1, _, h3, _⟩ := inv2 r a hl
    exact ⟨r, start_collab_of_consensus co oracle prompt ctx sidx r a hs hl, h3,
      Or.inl h1⟩
  | exhausted ms tu a =>
    obtain ⟨h1, _⟩ := inv3 ms tu a hl
    cases hf : co.force_consensus_after_max_turns with
    | true =>
      exact ⟨_, start_collab_exhausted_forced co oracle prompt ctx sidx ms tu a
        hs hf hl, h1, Or.inl rfl⟩
    | false =>
      exact ⟨_, start_collab_exhausted_unforced co oracle prompt ctx sidx ms tu a
        hs hf hl, h1, Or.inr ⟨rfl, rfl, rfl, rfl⟩⟩
  | outOfFuel =>
    exact absurd hl (inv1 (by unfold loopFuel; omega))

/-! ### Lemmas on `_force_consensus` -/

theorem lastAssistant_append (ms : List Message) (c : String) :
    lastAssistant (ms ++ [⟨Role.assistant, c⟩]) = some ⟨Role.assistant, c⟩ := by
  simp [lastAssistant, List.reverse_append, List.find?]

theorem lastAssistant_none (msgs : List Message)
    (h : ∀ m ∈ msgs, m.role ≠ Role.assistant) :
    lastAssistant msgs = none := by
  simp only [lastAssistant, List.find?_eq_none, List.mem_reverse]
  intro m hm
  simp only [beq_iff_eq]
  exact h m hm

/-! ### Claim C1 -/

/-- Formalization of the claim's words for C1: the processed fields minus
`{content, consensus, rawResponse, agentName}` — dropping the agent name as
well as the three keys the code drops. -/
def spec_metadataWithoutAgent (p : Processed) : List (String × Value) :=
  p.items.filter fun kv =>
    !(kv.1 == "content" || kv.1 == "consensus" || kv.1 == "raw_response"
      || kv.1 == "agent")

/-- C1, counterexample: a run whose first provider response carries the
consensus marker returns the claimed record except for `metadata`: the
coordinator's filter drops only `content`, `consensus` and `raw_response`,
so the returned metadata keeps the `agent` entry, and is not the claimed
"processed fields minus {content, consensus, rawResponse, agentName}". -/
theorem c1_counterexample :
    start_collaboration ⟨[zeroDefault, gustaveDefault], 5, true⟩
      (fun _ => some "An idea.\nConsensus: True") "Write" [] 0 =
      .ok { consensus := true
            forced_consensus := false
            content := some "An idea.\nConsensus: True"
            turns := 1
            messages := [⟨.user, "Write"⟩, ⟨.assistant, "An idea.\nConsensus: True"⟩]
            metadata := [("book_title", Value.nothing), ("agent", Value.str "Zero")] }
    ∧ [(("book_title" : String), Value.nothing), ("agent", Value.str "Zero")] ≠
      spec_metadataWithoutAgent (ZeroAgent.process_response "An idea.\nConsensus: True") :=
  ⟨by decide, by decide⟩

/-- C1 (amended): when the provider response at zero-based turn index `k` is
processed with `consensus = true`, the loop returns immediately with
`consensus = true`, `forced_consensus = false`, content equal to that
agent's cleaned content, `turns = k + 1`, and metadata equal to the
processed fields minus `{content, consensus, raw_response}` — the agent-name
entry is retained (`metadataOf`); the second conjunct instantiates this
through `start_collaboration` for a consensus on the first turn. -/
theorem c1_amended_consensus_record :
    (∀ (co : Coordinator) (oracle : Oracle) (fuel : Nat) (msgs : List Message)
        (ctx : List (String × Value)) (idx k cf att : Nat) (ag : Agent)
        (content : String),
      k < co.max_turns →
      co.agents.get? idx = some ag →
      knownProvider ag.provider = true →
      oracle att = some content →
      (ag.process_response content).consensus = true →
      loop co oracle (fuel + 1) msgs ctx idx k cf att =
        .consensusReached
          { consensus := true
            forced_consensus := false
            content := some (ag.process_response content).content
            turns := k + 1
            messages := msgs ++ [⟨.assistant, content⟩]
            metadata := metadataOf (ag.process_response content) } (att + 1))
    ∧ (∀ (co : Coordinator) (oracle : Oracle) (prompt : String)
        (ctx : List (String × Value)) (sidx : Nat) (ag : Agent) (content : String),
      sidx < co.agents.length →
      0 < co.max_turns →
      co.agents.get? sidx = some ag →
      knownProvider ag.provider = true →
      oracle 0 = some content →
      (ag.process_response content).consensus = true →
      start_collaboration co oracle prompt ctx sidx =
        .ok { consensus := true
              forced_consensus := false
              content := some (ag.process_response content).content
              turns := 1
              messages := [⟨.user, prompt⟩, ⟨.assistant, content⟩]
              metadata := metadataOf (ag.process_response content) }) := by
  constructor
  · intro co oracle fuel msgs ctx idx k cf att ag content ht hag hp ho hc
    exact loop_consensus_step co oracle fuel msgs ctx idx k cf att ag content
      ht hag hp ho hc
  · intro co oracle prompt ctx sidx ag content hs h0 hag hp ho hc
    have hl := loop_consensus_step co oracle (3 * co.max_turns + 3)
      [⟨.user, prompt⟩] ctx sidx 0 0 0 ag content h0 hag hp ho hc
    have hfuel : loopFuel co = 3 * co.max_turns + 3 + 1 := by
      unfold loopFuel
      omega
    exact start_collab_of_consensus co oracle prompt ctx sidx _ _ hs
      (by rw [hfuel]; exact hl)

/-- Witness for C1 (amended), at a concrete single-turn run. -/
theorem c1_witness :
    start_collaboration ⟨[zeroDefault, gustaveDefault], 5, true⟩
      (fun _ => some "A plan.\nConsensus: True") "Go" [] 0 =
      .ok { consensus := true
            forced_consensus := false
            content := some ((zeroDefault.process_response
              "A plan.\nConsensus: True").content)
            turns := 1
            messages := [⟨.user, "Go"⟩, ⟨.assistant, "A plan.\nConsensus: True"⟩]
            metadata := metadataOf (zeroDefault.process_response
              "A plan.\nConsensus: True") } :=
  c1_amended_consensus_record.2 ⟨[zeroDefault, gustaveDefault], 5, true⟩
    (fun _ => some "A plan.\nConsensus: True") "Go" [] 0 zeroDefault
    "A plan.\nConsensus: True" (by decide) (by decide) (by decide) (by decide)
    (by decide) (by decide)

/-! ### Claim C3 -/

/-- C3, counterexample: the claim quantifies over every run with
`max_turns = 3` and forcing enabled in which no turn's processed response
has `consensus = true`, and asserts `turns = 3`.  A run whose provider
raises on every attempt satisfies the antecedent vacuously (no turn is ever
processed), yet aborts after three consecutive failures with `turns = 0`,
and its content is the placeholder, not an extracted assistant message. -/
theorem c3_counterexample :
    start_collaboration ⟨[zeroDefault, gustaveDefault], 3, true⟩
      (fun _ => none) "Write" [] 0 =
      .ok { consensus := true
            forced_consensus := true
            content := some "No content available due to consensus failure."
            turns := 0
            messages := [⟨.user, "Write"⟩]
            metadata := [] }
    ∧ (0 : Nat) ≠ 3 :=
  ⟨by decide, by decide⟩

/-- Shape of an exhausted exit: either no successful turn happened during
the remaining run (history and turn count unchanged), or the turn count grew
and the history ends with the assistant message of the last successful turn
(failed attempts never append to the history). -/
theorem loop_exhausted_msgs_shape (co : Coordinator) (oracle : Oracle) :
    ∀ (fuel : Nat) (msgs : List Message) (ctx : List (String × Value))
      (idx t cf att : Nat) (ms : List Message) (tu a : Nat),
      loop co oracle fuel msgs ctx idx t cf att = .exhausted ms tu a →
      (ms = msgs ∧ tu = t) ∨
        (t < tu ∧ ∃ pre lastc, ms = pre ++ [⟨Role.assistant, lastc⟩]) := by
  intro fuel
  induction fuel with
  | zero =>
    intro msgs ctx idx t cf att ms tu a h
    simp [loop] at h
  | succ fuel ih =>
    intro msgs ctx idx t cf att ms tu a h
    by_cases htlt : t < co.max_turns
    · cases hag : co.agents.get? idx with
      | none =>
        have hfail : attemptFails co oracle idx att := by
          unfold attemptFails
          rw [hag]
          trivial
        by_cases habort : cf + 1 ≥ 3
        · rw [loop_abort_step co oracle fuel msgs ctx idx t cf att htlt hfail
            habort] at h
          injection h with h1 h2 h3
          exact Or.inl ⟨h1.symm, h2.symm⟩
        · rw [loop_fail_step co oracle fuel msgs ctx idx t cf att htlt hfail
            (by omega)] at h
          exact ih msgs ctx idx t (cf + 1) (att + 1) ms tu a h
      | some ag =>
        cases hq : knownProvider ag.provider with
        | false =>
          have hfail : attemptFails co oracle idx att := by
            unfold attemptFails
            rw [hag]
            exact Or.inl hq
          by_cases habort : cf + 1 ≥ 3
          · rw [loop_abort_step co oracle fuel msgs ctx idx t cf att htlt hfail
              habort] at h
            injection h with h1 h2 h3
            exact Or.inl ⟨h1.symm, h2.symm⟩
          · rw [loop_fail_step co oracle fuel msgs ctx idx t cf att htlt hfail
              (by omega)] at h
            exact ih msgs ctx idx t (cf + 1) (att + 1) ms tu a h
        | true =>
          cases ho : oracle att with
          | none =>
            have hfail : attemptFails co oracle idx att := by
              unfold attemptFails
              rw [hag]
              exact Or.inr ho
            by_cases habort : cf + 1 ≥ 3
            · rw [loop_abort_step co oracle fuel msgs ctx idx t cf att htlt hfail
                habort] at h
              injection h with h1 h2 h3
              exact Or.inl ⟨h1.symm, h2.symm⟩
            · rw [loop_fail_step co oracle fuel msgs ctx idx t cf att htlt hfail
                (by omega)] at h
              exact ih msgs ctx idx t (cf + 1) (att + 1) ms tu a h
          | some content =>
            cases hc : (ag.process_response content).consensus with
            | true =>
              rw [loop_consensus_step co oracle fuel msgs ctx idx t cf att ag
                content htlt hag hq ho hc] at h
              exact LoopOut.noConfusion h
            | false =>
              rw [loop_success_step co oracle fuel msgs ctx idx t cf att ag
                content htlt hag hq ho hc] at h
              rcases ih (msgs ++ [⟨.assistant, content⟩])
                  (ctxMerge ctx (ag.process_response content))
                  ((idx + 1) % co.agents.length) (t + 1) 0 (att + 1) ms tu a h with
                ⟨h1, h2⟩ | ⟨h1, h2⟩
              · exact Or.inr ⟨by omega, msgs, content, h1⟩
              · exact Or.inr ⟨by omega, h2⟩
    · rw [loop_exit_step co oracle fuel msgs ctx idx t cf att htlt] at h
      injection h with h1 h2 h3
      exact Or.inl ⟨h1.symm, h2.symm⟩

/-- An exhausted exit below the turn budget only arises from the
consecutive-failure break: the run's last three attempts all failed, at one
and the same turn index.  The two side conditions carry the meaning of the
`consecutive_failures` counter: `cf` failures at this index directly precede
attempt `att`. -/
theorem loop_abort_failures (co : Coordinator) (oracle : Oracle) :
    ∀ (fuel : Nat) (msgs : List Message) (ctx : List (String × Value))
      (idx t cf att : Nat) (ms : List Message) (tu a : Nat),
      cf ≤ att →
      (∀ j, j < cf → attemptFails co oracle idx (att - 1 - j)) →
      loop co oracle fuel msgs ctx idx t cf att = .exhausted ms tu a →
      tu < co.max_turns →
      ∃ idx2, 3 ≤ a ∧ attemptFails co oracle idx2 (a - 1) ∧
        attemptFails co oracle idx2 (a - 2) ∧ attemptFails co oracle idx2 (a - 3) := by
  intro fuel
  induction fuel with
  | zero =>
    intro msgs ctx idx t cf att ms tu a hca hpre h htu
    simp [loop] at h
  | succ fuel ih =>
    intro msgs ctx idx t cf att ms tu a hca hpre h htu
    by_cases htlt : t < co.max_turns
    · cases hag : co.agents.get? idx with
      | none =>
        have hfail : attemptFails co oracle idx att := by
          unfold attemptFails
          rw [hag]
          trivial
        by_cases habort : cf + 1 ≥ 3
        · rw [loop_abort_step co oracle fuel msgs ctx idx t cf att htlt hfail
            habort] at h
          injection h with h1 h2 h3
          subst h3
          refine ⟨idx, by omega, ?_, ?_, ?_⟩
          · rw [(by omega : att + 1 - 1 = att)]
            exact hfail
          · rw [(by omega : att + 1 - 2 = att - 1 - 0)]
            exact hpre 0 (by omega)
          · rw [(by omega : att + 1 - 3 = att - 1 - 1)]
            exact hpre 1 (by omega)
        · rw [loop_fail_step co oracle fuel msgs ctx idx t cf att htlt hfail
            (by omega)] at h
          refine ih msgs ctx idx t (cf + 1) (att + 1) ms tu a (by omega) ?_ h htu
          intro j hj
          cases j with
          | zero =>
            rw [(by omega : att + 1 - 1 - 0 = att)]
            exact hfail
          | succ k =>
            rw [(by omega : att + 1 - 1 - (k + 1) = att - 1 - k)]
            exact hpre k (by omega)
      | some ag =>
        cases hq : knownProvider ag.provider with
        | false =>
          have hfail : attemptFails co oracle idx att := by
            unfold attemptFails
            rw [hag]
            exact Or.inl hq
          by_cases habort : cf + 1 ≥ 3
          · rw [loop_abort_step co oracle fuel msgs ctx idx t cf att htlt hfail
              habort] at h
            injection h with h1 h2 h3
            subst h3
            refine ⟨idx, by omega, ?_, ?_, ?_⟩
            · rw [(by omega : att + 1 - 1 = att)]
              exact hfail
            · rw [(by omega : att + 1 - 2 = att - 1 - 0)]
              exact hpre 0 (by omega)
            · rw [(by omega : att + 1 - 3 = att - 1 - 1)]
              exact hpre 1 (by omega)
          · rw [loop_fail_step co oracle fuel msgs ctx idx t cf att htlt hfail
              (by omega)] at h
            refine ih msgs ctx idx t (cf + 1) (att + 1) ms tu a (by omega) ?_ h htu
            intro j hj
            cases j with
            | zero =>
              rw [(by omega : att + 1 - 1 - 0 = att)]
              exact hfail
            | succ k =>
              rw [(by omega : att + 1 - 1 - (k + 1) = att - 1 - k)]
              exact hpre k (by omega)
        | true =>
          cases ho : oracle att with
          | none =>
            have hfail : attemptFails co oracle idx att := by
              unfold attemptFails
              rw [hag]
              exact Or.inr ho
            by_cases habort : cf + 1 ≥ 3
            · rw [loop_abort_step co oracle fuel msgs ctx idx t cf att htlt hfail
                habort] at h
              injection h with h1 h2 h3
              subst h3
              refine ⟨idx, by omega, ?_, ?_, ?_⟩
              · rw [(by omega : att + 1 - 1 = att)]
                exact hfail
              · rw [(by omega : att + 1 - 2 = att - 1 - 0)]
                exact hpre 0 (by omega)
              · rw [(by omega : att + 1 - 3 = att - 1 - 1)]
                exact hpre 1 (by omega)
            · rw [loop_fail_step co oracle fuel msgs ctx idx t cf att htlt hfail
                (by omega)] at h
              refine ih msgs ctx idx t (cf + 1) (att + 1) ms tu a (by omega) ?_ h htu
              intro j hj
              cases j with
              | zero =>
                rw [(by omega : att + 1 - 1 - 0 = att)]
                exact hfail
              | succ k =>
                rw [(by omega : att + 1 - 1 - (k + 1) = att - 1 - k)]
                exact hpre k (by omega)
          | some content =>
            cases hc : (ag.process_response content).consensus with
            | true =>
              rw [loop_consensus_step co oracle fuel msgs ctx idx t cf att ag
                content htlt hag hq ho hc] at h
              exact LoopOut.noConfusion h
            | false =>
              rw [loop_success_step co oracle fuel msgs ctx idx t cf att ag
                content htlt hag hq ho hc] at h
              exact ih (msgs ++ [⟨.assistant, content⟩])
                (ctxMerge ctx (ag.process_response content))
                ((idx + 1) % co.agents.length) (t + 1) 0 (att + 1) ms tu a
                (by omega) (fun j hj => absurd hj (by omega)) h htu
    · rw [loop_exit_step co oracle fuel msgs ctx idx t cf att htlt] at h
      injection h with h1 h2 h3
      subst h2
      exact absurd htu htlt

/-- C3 (amended): for every run with `max_turns = 3` and forcing enabled in
which no turn's processed response has `consensus = true` and which is not
aborted by three consecutive provider failures, `start_collaboration`
returns `consensus = true`, `forced_consensus = true`, `turns = 3`, and
content equal to the first non-empty extracted content obtained by applying
each agent's response processing to the most recent assistant message in
the history.  A run that ends without a consensus turn is exactly one whose
loop exits `.exhausted`; the first conjunct shows an exit below the turn
budget can only be the three-consecutive-failure abort (the last three
attempts failed, at a single turn index), so "not aborted" is exactly
`turns = 3`; the second conjunct settles such runs — retried turns
included — the history then ends with the last successful turn's assistant
message, and the forced content is the first non-empty extraction from it. -/
theorem c3_amended_forced_consensus :
    (∀ (co : Coordinator) (oracle : Oracle) (msgs : List Message)
        (ctx : List (String × Value)) (idx : Nat) (ms : List Message) (tu a : Nat),
      loop co oracle (loopFuel co) msgs ctx idx 0 0 0 = .exhausted ms tu a →
      tu < co.max_turns →
      ∃ idx2, 3 ≤ a ∧ attemptFails co oracle idx2 (a - 1) ∧
        attemptFails co oracle idx2 (a - 2) ∧ attemptFails co oracle idx2 (a - 3))
    ∧ (∀ (co : Coordinator) (oracle : Oracle) (prompt : String)
        (ctx : List (String × Value)) (sidx : Nat) (ms : List Message) (a : Nat),
      co.max_turns = 3 →
      co.force_consensus_after_max_turns = true →
      sidx < co.agents.length →
      loop co oracle (loopFuel co) [⟨.user, prompt⟩] ctx sidx 0 0 0 =
        .exhausted ms 3 a →
      ∃ pre lastc,
        ms = pre ++ [⟨Role.assistant, lastc⟩] ∧
        start_collaboration co oracle prompt ctx sidx =
          .ok { consensus := true
                forced_consensus := true
                content := some (force_consensus co.agents ms)
                turns := 3
                messages := ms
                metadata := [] } ∧
        (∀ cc, firstGood co.agents lastc = some cc →
          force_consensus co.agents ms = cc)) := by
  constructor
  · intro co oracle msgs ctx idx ms tu a hl htu
    exact loop_abort_failures co oracle (loopFuel co) msgs ctx idx 0 0 0 ms tu a
      (by omega) (fun j hj => absurd hj (by omega)) hl htu
  · intro co oracle prompt ctx sidx ms a hmax hforce hs hl
    rcases loop_exhausted_msgs_shape co oracle (loopFuel co) [⟨.user, prompt⟩]
        ctx sidx 0 0 0 ms 3 a hl with ⟨_, h2⟩ | ⟨_, pre, lastc, hms⟩
    · exact absurd h2 (by omega)
    · refine ⟨pre, lastc, hms,
        start_collab_exhausted_forced co oracle prompt ctx sidx ms 3 a hs hforce hl,
        ?_⟩
      intro cc hcc
      rw [hms]
      have e : force_consensus co.agents (pre ++ [⟨Role.assistant, lastc⟩]) =
          (match firstGood co.agents lastc with | some c => c | none => lastc) := by
        unfold force_consensus
        rw [lastAssistant_append]
      rw [e, hcc]

/-- Witness for C3 (amended), at a concrete run whose first provider attempt
raises and is retried: the three successful turns that follow still exhaust
the budget, and the forced content is the extraction of the final assistant
message; the first conjunct instantiates the abort characterization on a run
whose every attempt fails. -/
theorem c3_witness :
    (∃ idx2, 3 ≤ 3 ∧
      attemptFails ⟨[zeroDefault, gustaveDefault], 3, true⟩ (fun _ => none)
        idx2 (3 - 1) ∧
      attemptFails ⟨[zeroDefault, gustaveDefault], 3, true⟩ (fun _ => none)
        idx2 (3 - 2) ∧
      attemptFails ⟨[zeroDefault, gustaveDefault], 3, true⟩ (fun _ => none)
        idx2 (3 - 3)) ∧
    (∃ pre lastc,
      ([⟨.user, "Write"⟩, ⟨.assistant, "Draft one"⟩, ⟨.assistant, "Draft two"⟩,
        ⟨.assistant, "Final draft"⟩] : List Message) =
          pre ++ [⟨Role.assistant, lastc⟩] ∧
      start_collaboration ⟨[zeroDefault, gustaveDefault], 3, true⟩
          (fun n => if n = 0 then none else if n = 1 then some "Draft one" else
            if n = 2 then some "Draft two" else some "Final draft") "Write" [] 0 =
        .ok { consensus := true
              forced_consensus := true
              content := some (force_consensus [zeroDefault, gustaveDefault]
                [⟨.user, "Write"⟩, ⟨.assistant, "Draft one"⟩,
                  ⟨.assistant, "Draft two"⟩, ⟨.assistant, "Final draft"⟩])
              turns := 3
              messages := [⟨.user, "Write"⟩, ⟨.assistant, "Draft one"⟩,
                ⟨.assistant, "Draft two"⟩, ⟨.assistant, "Final draft"⟩]
              metadata := [] } ∧
      (∀ cc, firstGood [zeroDefault, gustaveDefault] lastc = some cc →
        force_consensus [zeroDefault, gustaveDefault]
          [⟨.user, "Write"⟩, ⟨.assistant, "Draft one"⟩,
            ⟨.assistant, "Draft two"⟩, ⟨.assistant, "Final draft"⟩] = cc)) :=
  ⟨c3_amended_forced_consensus.1 ⟨[zeroDefault, gustaveDefault], 3, true⟩
      (fun _ => none) [⟨.user, "Write"⟩] [] 0 [⟨.user, "Write"⟩] 0 3
      (by decide) (by decide),
    c3_amended_forced_consensus.2 ⟨[zeroDefault, gustaveDefault], 3, true⟩
      (fun n => if n = 0 then none else if n = 1 then some "Draft one" else
        if n = 2 then some "Draft two" else some "Final draft") "Write" [] 0
      [⟨.user, "Write"⟩, ⟨.assistant, "Draft one"⟩, ⟨.assistant, "Draft two"⟩,
        ⟨.assistant, "Final draft"⟩] 4 (by decide) (by decide) (by decide)
      (by decide)⟩

/-! ### Claim C4 -/

/-- C4 (confirmed): for every configuration and every provider behaviour,
`start_collaboration` terminates with a result whose turn count is at most
`max_turns`; the whole run makes at most `3 * max_turns + 3` attempts (so at
most 2 consecutive failed attempts separate successful turns); a failed
attempt retries the same turn index without advancing `turn_count`; and the
third consecutive failure aborts the loop. -/
theorem c4_termination_and_bounds :
    (∀ (co : Coordinator) (oracle : Oracle) (prompt : String)
        (ctx : List (String × Value)) (sidx : Nat),
      sidx < co.agents.length →
      ∃ r, start_collaboration co oracle prompt ctx sidx = Except.ok r ∧
        r.turns ≤ co.max_turns)
    ∧ (∀ (co : Coordinator) (oracle : Oracle) (msgs : List Message)
        (ctx : List (String × Value)) (idx : Nat),
      (loop co oracle (loopFuel co) msgs ctx idx 0 0 0).attemptsOf ≤
        3 * co.max_turns + 3)
    ∧ (∀ (co : Coordinator) (oracle : Oracle) (fuel : Nat) (msgs : List Message)
        (ctx : List (String × Value)) (idx t cf att : Nat),
      t < co.max_turns → attemptFails co oracle idx att → cf + 1 < 3 →
      loop co oracle (fuel + 1) msgs ctx idx t cf att =
        loop co oracle fuel msgs ctx idx t (cf + 1) (att + 1))
    ∧ (∀ (co : Coordinator) (oracle : Oracle) (fuel : Nat) (msgs : List Message)
        (ctx : List (String × Value)) (idx t att : Nat),
      t < co.max_turns → attemptFails co oracle idx att →
      loop co oracle (fuel + 1) msgs ctx idx t 2 att =
        .exhausted msgs t (att + 1)) := by
  refine ⟨?_, ?_, ?_, ?_⟩
  · intro co oracle prompt ctx sidx hs
    obtain ⟨r, hr, ht, _⟩ := start_collab_cases co oracle prompt ctx sidx hs
    exact ⟨r, hr, ht⟩
  · intro co oracle msgs ctx idx
    obtain ⟨inv1, inv2, inv3⟩ := loop_invariants co oracle (loopFuel co)
      msgs ctx idx 0 0 0 (by omega) (by omega)
    cases hl : loop co oracle (loopFuel co) msgs ctx idx 0 0 0 with
    | consensusReached r a =>
      obtain ⟨_, _, _, ha⟩ := inv2 r a hl
      simp only [LoopOut.attemptsOf]
      omega
    | exhausted ms tu a =>
      obtain ⟨_, ha⟩ := inv3 ms tu a hl
      simp only [LoopOut.attemptsOf]
      omega
    | outOfFuel =>
      simp only [LoopOut.attemptsOf]
      omega
  · intro co oracle fuel msgs ctx idx t cf att ht hf hcf
    exact loop_fail_step co oracle fuel msgs ctx idx t cf att ht hf hcf
  · intro co oracle fuel msgs ctx idx t att ht hf
    exact loop_abort_step co oracle fuel msgs ctx idx t 2 att ht hf (by omega)

/-- Witness for C4 at a concrete run (a provider that always raises). -/
theorem c4_witness :
    ∃ r, start_collaboration ⟨[zeroDefault, gustaveDefault], 10, true⟩
        (fun _ => none) "Write" [] 0 = Except.ok r ∧ r.turns ≤ 10 :=
  c4_termination_and_bounds.1 ⟨[zeroDefault, gustaveDefault], 10, true⟩
    (fun _ => none) "Write" [] 0 (by decide)

/-! ### Claim C5 -/

/-- C5, counterexample: a Generator run whose provider raises on every
attempt is aborted by three consecutive failures, yet with forcing enabled
(the default) it surfaces as `success = true` (forced consensus), not as the
claimed `success = false` record. -/
theorem c5_counterexample :
    BaseGenerator.generate ⟨[zeroDefault, gustaveDefault], 2, true⟩
      (fun _ => none) "Write" [] 0 =
      .ok { success := true
            content := some "No content available due to consensus failure."
            consensus := true
            forced_consensus := true
            attempts := 0
            metadata := []
            messages := [⟨.user, "Write"⟩] } := by
  decide

/-- C5 (amended): for every Generator run with a valid starting index the
call returns a result record (no exception escapes the turn loop), with
`success` equal to the run's `consensus` flag; hence with forcing disabled a
run that ends without consensus — including one aborted by three consecutive
provider failures — surfaces as `success = false` with `content = None`,
while with forcing enabled such a run is absorbed into forced consensus
(`success = true`).  Construction raises only the fewer-than-two-agents
`ValueError`; an out-of-range starting index raises at run start, from
`start_collaboration` through `generate`. -/
theorem c5_amended_error_policy :
    (∀ (co : Coordinator) (oracle : Oracle) (prompt : String)
        (ctx : List (String × Value)) (sidx : Nat),
      sidx < co.agents.length →
      ∃ g, BaseGenerator.generate co oracle prompt ctx sidx = Except.ok g ∧
        g.success = g.consensus)
    ∧ (∀ (co : Coordinator) (oracle : Oracle) (prompt : String)
        (ctx : List (String × Value)) (sidx : Nat) (g : GenResult),
      BaseGenerator.generate co oracle prompt ctx sidx = Except.ok g →
      g.consensus = false →
      g.success = false ∧ g.content = none ∧ g.forced_consensus = false ∧
        co.force_consensus_after_max_turns = false)
    ∧ (∀ (agents : List Agent) (mt : Nat) (fc : Bool),
      (agents.length < 2 →
        mkCoordinator agents mt fc =
          Except.error "At least two agents are required for collaboration")
      ∧ (2 ≤ agents.length →
        mkCoordinator agents mt fc = Except.ok ⟨agents, mt, fc⟩))
    ∧ (∀ (co : Coordinator) (oracle : Oracle) (prompt : String)
        (ctx : List (String × Value)) (sidx : Nat),
      co.agents.length ≤ sidx →
      BaseGenerator.generate co oracle prompt ctx sidx =
        Except.error ("Invalid starting agent index: " ++ toString sidx)) := by
  refine ⟨?_, ?_, ?_, ?_⟩
  · intro co oracle prompt ctx sidx hs
    obtain ⟨r, hr, _, _⟩ := start_collab_cases co oracle prompt ctx sidx hs
    have hgen : BaseGenerator.generate co oracle prompt ctx sidx =
        Except.ok
          { success := r.consensus
            content := r.content
            consensus := r.consensus
            forced_consensus := r.forced_consensus
            attempts := r.turns
            metadata := r.metadata
            messages := r.messages } := by
      unfold BaseGenerator.generate
      rw [hr]
    exact ⟨_, hgen, rfl⟩
  · intro co oracle prompt ctx sidx g hgen hgc
    by_cases hs : sidx < co.agents.length
    · obtain ⟨r, hr, _, hshape⟩ := start_collab_cases co oracle prompt ctx sidx hs
      unfold BaseGenerator.generate at hgen
      rw [hr] at hgen
      injection hgen with hg
      subst hg
      simp only at hgc
      cases hshape with
      | inl hcons => rw [hcons] at hgc; exact absurd hgc (by simp)
      | inr hfail =>
        obtain ⟨_, hforced, hcont, hfc⟩ := hfail
        exact ⟨hgc, hcont, hforced, hfc⟩
    · exfalso
      unfold BaseGenerator.generate start_collaboration at hgen
      rw [if_pos (by omega)] at hgen
      exact Except.noConfusion hgen
  · intro agents mt fc
    constructor
    · intro h
      unfold mkCoordinator
      rw [if_pos h]
    · intro h
      unfold mkCoordinator
      rw [if_neg (by omega)]
  · intro co oracle prompt ctx sidx hs
    unfold BaseGenerator.generate start_collaboration
    rw [if_pos (by omega)]

/-- Witness for C5 (amended): forcing disabled, every provider call raises;
the run aborts and the generator reports `success = false` with no
exception. -/
theorem c5_witness :
    ∃ g, BaseGenerator.generate ⟨[zeroDefault, gustaveDefault], 2, false⟩
        (fun _ => none) "Write" [] 0 = Except.ok g ∧ g.success = g.consensus :=
  c5_amended_error_policy.1 ⟨[zeroDefault, gustaveDefault], 2, false⟩
    (fun _ => none) "Write" [] 0 (by decide)

/-! ### Claim C6 -/

/-- Coordinator whose starting agent declares a provider id the registry
does not hold. -/
def coUnknownProvider : Coordinator :=
  ⟨[⟨"Zero", "", "gpt-4", "groq", .zero⟩, gustaveDefault], 5, true⟩

/-- C6, counterexample: with an unresolvable provider id on the starting
agent, the run is not fatally stopped at its first attempt: the lookup error
is raised inside the `try`, caught, and retried — the loop consumes three
attempts (not one) before aborting, and the run then returns a forced-
consensus result instead of surfacing a fatal error. -/
theorem c6_counterexample :
    (loop coUnknownProvider (fun _ => some "Hi") (loopFuel coUnknownProvider)
        [⟨.user, "Go"⟩] [] 0 0 0 0).attemptsOf = 3 ∧
    start_collaboration coUnknownProvider (fun _ => some "Hi") "Go" [] 0 =
      .ok { consensus := true
            forced_consensus := true
            content := some "No content available due to consensus failure."
            turns := 0
            messages := [⟨.user, "Go"⟩]
            metadata := [] } :=
  ⟨by decide, by decide⟩

/-- C6 (amended): an unresolvable provider id raises inside the turn loop
and is handled exactly like a transient provider error: the attempt is
retried at the same turn index and turn count while the consecutive-failure
counter is below 3, and the third consecutive failure aborts the loop (after
which the normal forcing policy applies) — it is not a distinct fatal error
at run start. -/
theorem c6_amended_unknown_provider :
    (∀ (co : Coordinator) (oracle : Oracle) (fuel : Nat) (msgs : List Message)
        (ctx : List (String × Value)) (idx t cf att : Nat) (ag : Agent),
      t < co.max_turns → co.agents.get? idx = some ag →
      knownProvider ag.provider = false → cf + 1 < 3 →
      loop co oracle (fuel + 1) msgs ctx idx t cf att =
        loop co oracle fuel msgs ctx idx t (cf + 1) (att + 1))
    ∧ (∀ (co : Coordinator) (oracle : Oracle) (fuel : Nat) (msgs : List Message)
        (ctx : List (String × Value)) (idx t att : Nat) (ag : Agent),
      t < co.max_turns → co.agents.get? idx = some ag →
      knownProvider ag.provider = false →
      loop co oracle (fuel + 1) msgs ctx idx t 2 att =
        .exhausted msgs t (att + 1)) := by
  constructor
  · intro co oracle fuel msgs ctx idx t cf att ag ht hag hq hcf
    refine loop_fail_step co oracle fuel msgs ctx idx t cf att ht ?_ hcf
    unfold attemptFails
    rw [hag]
    exact Or.inl hq
  · intro co oracle fuel msgs ctx idx t att ag ht hag hq
    refine loop_abort_step co oracle fuel msgs ctx idx t 2 att ht ?_ (by omega)
    unfold attemptFails
    rw [hag]
    exact Or.inl hq

/-- Witness for C6 (amended): one retry step of the unknown-provider run. -/
theorem c6_witness :
    loop coUnknownProvider (fun _ => some "Hi") (9 + 1) [⟨.user, "Go"⟩] [] 0 0 0 0 =
      loop coUnknownProvider (fun _ => some "Hi") 9 [⟨.user, "Go"⟩] [] 0 0 1 1 :=
  c6_amended_unknown_provider.1 coUnknownProvider (fun _ => some "Hi") 9
    [⟨.user, "Go"⟩] [] 0 0 0 0 ⟨"Zero", "", "gpt-4", "groq", .zero⟩
    (by decide) (by decide) (by decide) (by decide)

/-! ### Claim C10 -/

/-- C10 (confirmed): a run with forcing enabled that exits the loop without
consensus returns `content = some _` (never `None`); and when the message
history holds no assistant message — for example when every attempt failed —
`_force_consensus` returns the fixed placeholder string. -/
theorem c10_forced_content_nonnull :
    (∀ (agents : List Agent) (msgs : List Message),
      (∀ m ∈ msgs, m.role ≠ Role.assistant) →
      force_consensus agents msgs = "No content available due to consensus failure.")
    ∧ (∀ (co : Coordinator) (oracle : Oracle) (prompt : String)
        (ctx : List (String × Value)) (sidx : Nat) (ms : List Message) (tu a : Nat),
      sidx < co.agents.length →
      co.force_consensus_after_max_turns = true →
      loop co oracle (loopFuel co) [⟨.user, prompt⟩] ctx sidx 0 0 0 =
        .exhausted ms tu a →
      start_collaboration co oracle prompt ctx sidx =
        .ok { consensus := true
              forced_consensus := true
              content := some (force_consensus co.agents ms)
              turns := tu
              messages := ms
              metadata := [] }) := by
  constructor
  · intro agents msgs h
    unfold force_consensus
    rw [lastAssistant_none msgs h]
  · intro co oracle prompt ctx sidx ms tu a hs hf hl
    exact start_collab_exhausted_forced co oracle prompt ctx sidx ms tu a hs hf hl

/-- Witness for C10: a run whose every attempt fails exits with an
assistant-free history; the forced result's content is the non-null
placeholder. -/
theorem c10_witness :
    force_consensus [zeroDefault, gustaveDefault] [⟨.user, "Write"⟩] =
      "No content available due to consensus failure." ∧
    start_collaboration ⟨[zeroDefault, gustaveDefault], 2, true⟩
        (fun _ => none) "Write" [] 0 =
      .ok { consensus := true
            forced_consensus := true
            content := some (force_consensus [zeroDefault, gustaveDefault]
              [⟨.user, "Write"⟩])
            turns := 0
            messages := [⟨.user, "Write"⟩]
            metadata := [] } :=
  ⟨c10_forced_content_nonnull.1 [zeroDefault, gustaveDefault] [⟨.user, "Write"⟩]
      (by decide),
    c10_forced_content_nonnull.2 ⟨[zeroDefault, gustaveDefault], 2, true⟩
      (fun _ => none) "Write" [] 0 [⟨.user, "Write"⟩] 0 3 (by decide) (by decide)
      (by decide)⟩
